import Mathlib

/-!
Shallow embedding of the apollo-passport MongoDB driver (`src/index.js`).

Documents are modelled as association lists of string-keyed JSON-like
values.  Each driver method is translated into a small program (`Prog`)
over the two collections (`users`, `config`), mirroring the method body
line by line: `await this._ready()` becomes a `ready` step, each
MongoDB round trip becomes one `findUsers` / `updateUsers` /
`insertConfigDoc` / `findConfigAll` step.  The interpreter `runP`
returns the outcome (`none` models a thrown exception / rejected
promise), the final database state, and the trace of steps taken.

Time: `$currentDate` is modelled by a logical clock on the database
state that ticks on every update, so `dateUpdated` receives a value
strictly larger than the clock value at any earlier write.
-/

/-- JSON-like values stored in MongoDB documents. -/
inductive Val where
  | str (s : String)
  | nat (n : Nat)
  | bool (b : Bool)
  | null
  | doc (fields : List (String × Val))
  | arr (elems : List Val)
deriving Repr

/-- A document is an ordered list of string-keyed fields (JS object). -/
abbrev Doc := List (String × Val)

/-- First binding of key `k` (JS property read; keys are unique in
documents built by this model, so first = only). -/
def getField (d : Doc) (k : String) : Option Val :=
  match d with
  | [] => none
  | (k', v) :: rest => if k' = k then some v else getField rest k

/-- JS property write: replace the binding of `k` in place if present,
otherwise append it (insertion-order semantics of JS objects). -/
def setField (d : Doc) (k : String) (v : Val) : Doc :=
  match d with
  | [] => [(k, v)]
  | (k', v') :: rest => if k' = k then (k, v) :: rest else (k', v') :: setField rest k v

/-- MongoDB `$unset` / JS `delete`: remove every binding of `k`. -/
def removeField (d : Doc) (k : String) : Doc :=
  match d with
  | [] => []
  | (k', v) :: rest => if k' = k then removeField rest k else (k', v) :: removeField rest k

/-- JS object spread `{ ...base, ...extra }`: entries of `extra` are
written over `base` in order, later keys winning. -/
def spread (base extra : Doc) : Doc :=
  extra.foldl (fun d kv => setField d kv.1 kv.2) base

/-- How JS coerces a value to an object key (only string keys are
exercised by the driver; the other branches are the JS stringification
of the impossible cases). -/
def keyStr : Option Val → String
  | some (.str s) => s
  | some (.nat n) => toString n
  | some (.bool b) => toString b
  | some .null => "null"
  | some (.doc _) => "[object Object]"
  | some (.arr _) => ""
  | none => "undefined"

/-- Filter `{ _id: userId }` (the driver always passes a string id). -/
def matchesId (userId : String) (d : Doc) : Bool :=
  match getField d "_id" with
  | some (.str s) => s == userId
  | _ => false

/-- `e.value === email` on one element of the `emails` array. -/
def emailValueIs (email : String) (e : Val) : Bool :=
  match e with
  | .doc ed =>
    match getField ed "value" with
    | some (.str s) => s == email
    | _ => false
  | _ => false

/-- MongoDB filter `{ 'emails.value': email }`: dotted path over an
array matches when some element has the value; over an embedded
document it reads the field directly. -/
def hasEmailValue (email : String) (d : Doc) : Bool :=
  match getField d "emails" with
  | some (.arr es) => es.any (emailValueIs email)
  | some (.doc ed) =>
    match getField ed "value" with
    | some (.str s) => s == email
    | _ => false
  | _ => false

/-- MongoDB filter `{ ['services.' + service + '.id']: id }` with
`services` an embedded document keyed by service name. -/
def hasServiceId (service sid : String) (d : Doc) : Bool :=
  match getField d "services" with
  | some (.doc sd) =>
    match getField sd service with
    | some (.doc srv) =>
      match getField srv "id" with
      | some (.str s) => s == sid
      | _ => false
    | _ => false
  | _ => false

/-- The two collections plus the logical clock used for `$currentDate`. -/
structure DB where
  users : List Doc
  config : List Doc
  clock : Nat
deriving Repr

/-- Store events, used to audit which round trips an operation makes
and whether it awaited the readiness gate first. -/
inductive Ev where
  | ready
  | findUsers
  | updateUsers
  | insertConfig
  | findConfig
deriving Repr, DecidableEq

/-- Driver-method programs: each constructor is one awaited step of the
JS method body.  `fail` models a thrown TypeError / rejected promise. -/
inductive Prog (α : Type) where
  | done (a : α)
  | fail
  | ready (k : Prog α)
  | findUsers (p : Doc → Bool) (k : Option Doc → Prog α)
  | updateUsers (p : Doc → Bool) (f : Nat → Doc → Doc) (k : Prog α)
  | insertConfigDoc (d : Doc) (k : Prog α)
  | findConfigAll (k : List Doc → Prog α)

/-- MongoDB `updateOne`: modify the first document matching the filter
(no-op when none matches; the driver never uses upsert). -/
def updateFirst (l : List Doc) (p : Doc → Bool) (f : Doc → Doc) : List Doc :=
  match l with
  | [] => []
  | d :: rest => if p d then f d :: rest else d :: updateFirst rest p f

/-- Interpreter: outcome (`none` = exception), final state, and trace. -/
def runP {α : Type} : Prog α → DB → Option α × DB × List Ev
  | .done a, st => (some a, st, [])
  | .fail, st => (none, st, [])
  | .ready k, st =>
    let r := runP k st
    (r.1, r.2.1, Ev.ready :: r.2.2)
  | .findUsers p k, st =>
    let r := runP (k (st.users.find? p)) st
    (r.1, r.2.1, Ev.findUsers :: r.2.2)
  | .updateUsers p f k, st =>
    let now := st.clock + 1
    let st1 : DB := { st with users := updateFirst st.users p (f now), clock := now }
    let r := runP k st1
    (r.1, r.2.1, Ev.updateUsers :: r.2.2)
  | .insertConfigDoc d k, st =>
    let r := runP k { st with config := st.config ++ [d] }
    (r.1, r.2.1, Ev.insertConfig :: r.2.2)
  | .findConfigAll k, st =>
    let r := runP (k st.config) st
    (r.1, r.2.1, Ev.findConfig :: r.2.2)

/-- Outcome of a run: `some a` = the promise resolved with `a`,
`none` = it rejected. -/
def runOutcome {α : Type} (p : Prog α) (st : DB) : Option α := (runP p st).1

/-- Database state after a run. -/
def runState {α : Type} (p : Prog α) (st : DB) : DB := (runP p st).2.1

/-- Trace of store events of a run. -/
def runTrace {α : Type} (p : Prog α) (st : DB) : List Ev := (runP p st).2.2

/-! Driver methods, translated from `src/index.js`. -/

/-- Body of the `results.forEach` loop of `fetchConfig`: make sure
`out[row.type]` is an object, then write `out[row.type][row._id] = row`. -/
def configReshape (out row : Doc) : Doc :=
  let t := keyStr (getField row "type")
  let i := keyStr (getField row "_id")
  let inner : Doc :=
    match getField out t with
    | some (.doc dd) => dd
    | _ => []
  setField out t (.doc (setField inner i (.doc row)))

/-- `fetchConfig()`: awaits readiness, loads all config rows, reshapes
them into `out[row.type][row._id] = row`. -/
def fetchConfig : Prog Doc :=
  .ready <| .findConfigAll fun results =>
    .done (results.foldl configReshape [])

/-- `setConfigKey(type, _id, value)`: awaits readiness, then inserts
`{ type, _id, ...value }`. -/
def setConfigKey (type idv : String) (value : Doc) : Prog Unit :=
  .ready <| .insertConfigDoc (spread [("type", .str type), ("_id", .str idv)] value) (.done ())

/-- `fetchUserById(userId)`: awaits readiness, returns
`users.findOne({_id: userId})` directly (the MongoDB driver resolves
with `null` on no match, modelled by `none`). -/
def fetchUserById (userId : String) : Prog (Option Doc) :=
  .ready <| .findUsers (matchesId userId) fun r => .done r

/-- `fetchUserByEmail(email)`: awaits readiness, `findOne` on
`{'emails.value': email}`, then `results || null`. -/
def fetchUserByEmail (email : String) : Prog (Option Doc) :=
  .ready <| .findUsers (hasEmailValue email) fun results => .done results

/-- `fetchUserByServiceIdOrEmail(service, id, email)`: awaits
readiness, `findOne` on the `$or` of the service-id filter and the
email filter, then `results || null`. -/
def fetchUserByServiceIdOrEmail (service sid email : String) : Prog (Option Doc) :=
  .ready <| .findUsers (fun d => hasServiceId service sid d || hasEmailValue email d)
    fun results => .done results

/-- Update document of `verifyUserAccount`: `$set {verifiedField:
true}`, `$unset` both token fields, `$currentDate dateUpdated`. -/
def verifyUpd (verifiedField tf tef : String) (now : Nat) (d : Doc) : Doc :=
  setField (removeField (removeField (setField d verifiedField (.bool true)) tf) tef)
    "dateUpdated" (.nat now)

/-- `verifyUserAccount(userId, ...)`: awaits readiness, does an unused
`findOne`, then one `updateOne` with the combined modifiers. -/
def verifyUserAccount (userId verifiedField tf tef : String) : Prog Unit :=
  .ready <| .findUsers (matchesId userId) fun _user =>
    .updateUsers (matchesId userId) (verifyUpd verifiedField tf tef) (.done ())

/-- `verifyUserAccount` at its default field names. -/
def verifyUserAccountDflt (userId : String) : Prog Unit :=
  verifyUserAccount userId "verified" "verificationToken" "verificationTokenExpiration"

/-- Update document of `addResetPasswordToken`: `$set` of the two
token fields, `$currentDate dateUpdated`, and `$unset
{ verificationToken: '', tokenExpirationField: '' }` — note the second
unset key is the string literal `"tokenExpirationField"`, exactly as
written in the source (no computed-property brackets). -/
def addResetUpd (tf tef : String) (token tokenExpiration : Val) (now : Nat) (d : Doc) : Doc :=
  removeField (removeField
    (setField (setField (setField d tf token) tef tokenExpiration) "dateUpdated" (.nat now))
    "verificationToken") "tokenExpirationField"

/-- `addResetPasswordToken(userId, token, tokenExpiration, ...)`:
issues its `updateOne` directly — the source has no
`await this._ready()` in this method. -/
def addResetPasswordToken (userId : String) (token tokenExpiration : Val)
    (tf tef : String) : Prog Unit :=
  .updateUsers (matchesId userId) (addResetUpd tf tef token tokenExpiration) (.done ())

/-- `addResetPasswordToken` at its default field names. -/
def addResetPasswordTokenDflt (userId : String) (token tokenExpiration : Val) : Prog Unit :=
  addResetPasswordToken userId token tokenExpiration "resetPassToken" "resetPassTokenExpiration"

/-- MongoDB `$push {emails: v}` plus `$currentDate dateUpdated`:
appends to the array (creates it when absent; a non-array field makes
the update fail, left as the unchanged document here — that branch is
unreachable from the driver, which only pushes after a successful
`user.emails.find`). -/
def pushEmailUpd (emailData : Val) (now : Nat) (d : Doc) : Doc :=
  match getField d "emails" with
  | some (.arr es) => setField (setField d "emails" (.arr (es ++ [emailData]))) "dateUpdated" (.nat now)
  | none => setField (setField d "emails" (.arr [emailData])) "dateUpdated" (.nat now)
  | _ => d

/-- MongoDB `$set {['emails.' + idx]: v}` plus `$currentDate`:
replaces the array element at `idx`.  An out-of-range index makes
MongoDB reject the update; that is modelled as the unchanged document
(the driver only produces `idx = -1` in the push-then-set corner,
which no verified property depends on). -/
def setEmailsAtUpd (idx : Int) (emailData : Val) (now : Nat) (d : Doc) : Doc :=
  match getField d "emails" with
  | some (.arr es) =>
    if 0 ≤ idx ∧ idx < (es.length : Int) then
      setField (setField d "emails" (.arr (es.set idx.toNat emailData))) "dateUpdated" (.nat now)
    else d
  | _ => d

/-- JS `es.indexOf(es.find(p))`: index of the first element satisfying
`p`, or `-1` when none does (`indexOf(undefined)` is `-1`). -/
def indexOfFirst (p : Val → Bool) : List Val → Int
  | [] => -1
  | e :: rest =>
    if p e then 0
    else
      let r := indexOfFirst p rest
      if r < 0 then -1 else r + 1

/-- `assertUserEmailData(userId, email, data)`: awaits readiness,
fetches the user (a missing user or a non-array `emails` field throws,
as `user.emails.find` would), locates the entry with the given value,
then runs the source's two independent `if` branches: push when the
entry is absent, positional `$set` of `{ ...userEmail, ...data }` when
`data` is supplied. -/
def assertUserEmailData (userId email : String) (data : Option Doc) : Prog Unit :=
  .ready <| .findUsers (matchesId userId) fun user? =>
    match user? with
    | none => .fail
    | some user =>
      match getField user "emails" with
      | some (.arr es) =>
        let userEmail := es.find? (emailValueIs email)
        let step2 : Prog Unit :=
          match data with
          | some dta =>
            let idx : Int := indexOfFirst (emailValueIs email) es
            let prior : Doc :=
              match userEmail with
              | some (.doc ed) => ed
              | _ => []
            .updateUsers (matchesId userId)
              (setEmailsAtUpd idx (Val.doc (spread prior dta))) (.done ())
          | none => .done ()
        match userEmail with
        | none =>
          .updateUsers (matchesId userId)
            (pushEmailUpd (Val.doc (spread [("value", .str email)] (data.getD [])))) step2
        | some _ => step2
      | _ => .fail

/-- Update document of `assertUserServiceData`: `$set { services:
{ [service]: { ...data } } }` — the whole top-level `services` field is
overwritten — plus `$currentDate dateUpdated`. -/
def serviceUpd (service : String) (data : Doc) (now : Nat) (d : Doc) : Doc :=
  setField (setField d "services" (.doc [(service, .doc (spread [] data))])) "dateUpdated" (.nat now)

/-- `assertUserServiceData(userId, service, data)`: awaits readiness,
then one `updateOne` with `serviceUpd`. -/
def assertUserServiceData (userId service : String) (data : Doc) : Prog Unit :=
  .ready <| .updateUsers (matchesId userId) (serviceUpd service data) (.done ())

/-- `mapUserToServiceData(user, service)`: pure projection
`user && user.services && user.services[service]`. -/
def mapUserToServiceData (user : Doc) (service : String) : Option Val :=
  match getField user "services" with
  | some (.doc sd) => getField sd service
  | _ => none

/-! The readiness gate (`readySubs` / `_init` / `_ready`), modelled as
an explicit state machine over waiter identifiers. -/

/-- Gate state: the `initted` flag and the `readySubs` waiter queue. -/
structure Gate where
  initted : Bool
  readySubs : List Nat
deriving Repr, DecidableEq

/-- `_ready()`: resolve immediately when `initted`, otherwise push the
resolver onto `readySubs`.  Returns whether the call resolved
immediately, plus the new gate state. -/
def gateReady (g : Gate) (w : Nat) : Bool × Gate :=
  if g.initted then (true, g)
  else (false, { g with readySubs := g.readySubs ++ [w] })

/-- The drain loop of `_init`: `while (readySubs.length)
readySubs.shift().call()` — releases waiters head-first. -/
def drain : List Nat → List Nat
  | [] => []
  | w :: rest => w :: drain rest

/-- Completion of `_init`: sets `initted = true` and drains the queue.
Returns the release order and the final gate state. -/
def initComplete (g : Gate) : List Nat × Gate :=
  (drain g.readySubs, { initted := true, readySubs := [] })

/-- A sequence of `_ready()` calls (dropping the returned flags). -/
def enqueueAll (g : Gate) (ws : List Nat) : Gate :=
  ws.foldl (fun g' w => (gateReady g' w).2) g

/-! Basic lemmas about document field operations. -/

/-- Reading the key just written. -/
theorem getField_setField_self (d : Doc) (k : String) (v : Val) :
    getField (setField d k v) k = some v := by
  induction d with
  | nil => simp [setField, getField]
  | cons kv rest ih =>
    by_cases h : kv.1 = k
    · simp [setField, getField, h]
    · simp [setField, getField, h, ih]

/-- Writing one key does not change any other key. -/
theorem getField_setField_ne {k k' : String} (d : Doc) (v : Val) (h : k' ≠ k) :
    getField (setField d k v) k' = getField d k' := by
  induction d with
  | nil => simp [setField, getField, Ne.symm h]
  | cons kv rest ih =>
    by_cases hk : kv.1 = k
    · simp [setField, getField, hk, Ne.symm h]
    · simp only [setField, getField, hk, if_false]
      by_cases hk' : kv.1 = k'
      · simp [hk']
      · simp [hk', ih]

/-- A removed key is gone. -/
theorem getField_removeField_self (d : Doc) (k : String) :
    getField (removeField d k) k = none := by
  induction d with
  | nil => simp [removeField, getField]
  | cons kv rest ih =>
    by_cases h : kv.1 = k
    · simpa [removeField, h] using ih
    · simp [removeField, getField, h, ih]

/-- Removing one key does not change any other key. -/
theorem getField_removeField_ne {k k' : String} (d : Doc) (h : k' ≠ k) :
    getField (removeField d k) k' = getField d k' := by
  induction d with
  | nil => simp [removeField]
  | cons kv rest ih =>
    by_cases hk : kv.1 = k
    · have hne : kv.1 ≠ k' := by rw [hk]; exact Ne.symm h
      simp [removeField, getField, hk, hne, Ne.symm h, ih]
    · by_cases hk' : kv.1 = k'
      · simp [removeField, getField, hk, hk', h]
      · simp [removeField, getField, hk, hk', ih]

/-- Spreading entries none of which bind `k` leaves `k` unchanged. -/
theorem getField_spread_of_not_mem (extra : Doc) (k : String) :
    ∀ base : Doc, (∀ kv ∈ extra, kv.1 ≠ k) →
      getField (spread base extra) k = getField base k := by
  induction extra with
  | nil => intro base _; rfl
  | cons kv rest ih =>
    intro base h
    have h1 : kv.1 ≠ k := h kv (List.mem_cons_self kv rest)
    have h2 : ∀ kv' ∈ rest, kv'.1 ≠ k := fun kv' hm => h kv' (List.mem_cons_of_mem kv hm)
    show getField (spread (setField base kv.1 kv.2) rest) k = getField base k
    rw [ih (setField base kv.1 kv.2) h2, getField_setField_ne _ _ (Ne.symm h1)]

/-- `updateOne` rewrites the first match and leaves the rest; when the
update preserves the filter, the first match after the update is the
updated first match before it. -/
theorem find?_updateFirst (l : List Doc) (p : Doc → Bool) (f : Doc → Doc)
    (hf : ∀ d, p d = true → p (f d) = true) :
    (updateFirst l p f).find? p = (l.find? p).map f := by
  induction l with
  | nil => simp [updateFirst]
  | cons d rest ih =>
    by_cases h : p d = true
    · simp [updateFirst, h, List.find?, hf d h]
    · have h' : p d = false := by simpa using h
      simp [updateFirst, h', List.find?, ih]

/-- Index returned by `indexOfFirst` for a successful `find?`. -/
theorem indexOfFirst_of_find? (p : Val → Bool) :
    ∀ (es : List Val) (e : Val), es.find? p = some e →
      ∃ n : Nat, indexOfFirst p es = (n : Int) ∧ n < es.length := by
  intro es
  induction es with
  | nil => intro e h; simp [List.find?] at h
  | cons a rest ih =>
    intro e h
    by_cases ha : p a = true
    · exact ⟨0, by simp [indexOfFirst, ha], by simp⟩
    · have ha' : p a = false := by simpa using ha
      simp only [List.find?, ha'] at h
      obtain ⟨n, hn, hlt⟩ := ih e h
      refine ⟨n + 1, ?_, by simpa using Nat.succ_lt_succ hlt⟩
      have : ¬ ((n : Int) < 0) := by omega
      simp [indexOfFirst, ha', hn, this]

/-! Execution equations: how each driver method runs on any state. -/

/-- Run of `fetchUserById`. -/
theorem runP_fetchUserById (uid : String) (st : DB) :
    runP (fetchUserById uid) st =
      (some (st.users.find? (matchesId uid)), st, [Ev.ready, Ev.findUsers]) := rfl

/-- Run of `fetchUserByEmail`. -/
theorem runP_fetchUserByEmail (email : String) (st : DB) :
    runP (fetchUserByEmail email) st =
      (some (st.users.find? (hasEmailValue email)), st, [Ev.ready, Ev.findUsers]) := rfl

/-- Run of `fetchUserByServiceIdOrEmail`. -/
theorem runP_fetchUserByServiceIdOrEmail (service sid email : String) (st : DB) :
    runP (fetchUserByServiceIdOrEmail service sid email) st =
      (some (st.users.find? (fun d => hasServiceId service sid d || hasEmailValue email d)),
       st, [Ev.ready, Ev.findUsers]) := rfl

/-- Run of `verifyUserAccount` at default field names. -/
theorem runP_verifyDflt (uid : String) (st : DB) :
    runP (verifyUserAccountDflt uid) st =
      (some (),
       { users := updateFirst st.users (matchesId uid)
           (verifyUpd "verified" "verificationToken" "verificationTokenExpiration" (st.clock + 1)),
         config := st.config, clock := st.clock + 1 },
       [Ev.ready, Ev.findUsers, Ev.updateUsers]) := rfl

/-- Run of `addResetPasswordToken` at default field names: note the
trace — no `Ev.ready` step precedes the update. -/
theorem runP_addResetDflt (uid : String) (token texp : Val) (st : DB) :
    runP (addResetPasswordTokenDflt uid token texp) st =
      (some (),
       { users := updateFirst st.users (matchesId uid)
           (addResetUpd "resetPassToken" "resetPassTokenExpiration" token texp (st.clock + 1)),
         config := st.config, clock := st.clock + 1 },
       [Ev.updateUsers]) := rfl

/-- Run of `assertUserServiceData`. -/
theorem runP_assertService (uid service : String) (data : Doc) (st : DB) :
    runP (assertUserServiceData uid service data) st =
      (some (),
       { users := updateFirst st.users (matchesId uid) (serviceUpd service data (st.clock + 1)),
         config := st.config, clock := st.clock + 1 },
       [Ev.ready, Ev.updateUsers]) := rfl

/-- Run of `setConfigKey`. -/
theorem runP_setConfigKey (ty idv : String) (value : Doc) (st : DB) :
    runP (setConfigKey ty idv value) st =
      (some (),
       { users := st.users,
         config := st.config ++ [spread [("type", .str ty), ("_id", .str idv)] value],
         clock := st.clock },
       [Ev.ready, Ev.insertConfig]) := rfl

/-- Run of `fetchConfig`. -/
theorem runP_fetchConfig (st : DB) :
    runP fetchConfig st =
      (some (st.config.foldl configReshape []), st, [Ev.ready, Ev.findConfig]) := rfl

theorem matchesId_congr (uid : String) {d d' : Doc}
    (h : getField d' "_id" = getField d "_id") : matchesId uid d' = matchesId uid d := by
  unfold matchesId; rw [h]

theorem verifyUpd_id (now : Nat) (d : Doc) :
    getField (verifyUpd "verified" "verificationToken" "verificationTokenExpiration" now d) "_id"
      = getField d "_id" := by
  unfold verifyUpd
  rw [getField_setField_ne _ _ (by decide), getField_removeField_ne _ (by decide),
    getField_removeField_ne _ (by decide), getField_setField_ne _ _ (by decide)]

theorem addResetUpd_id (token texp : Val) (now : Nat) (d : Doc) :
    getField (addResetUpd "resetPassToken" "resetPassTokenExpiration" token texp now d) "_id"
      = getField d "_id" := by
  unfold addResetUpd
  rw [getField_removeField_ne _ (by decide), getField_removeField_ne _ (by decide),
    getField_setField_ne _ _ (by decide), getField_setField_ne _ _ (by decide),
    getField_setField_ne _ _ (by decide)]

theorem serviceUpd_id (service : String) (data : Doc) (now : Nat) (d : Doc) :
    getField (serviceUpd service data now d) "_id" = getField d "_id" := by
  unfold serviceUpd
  rw [getField_setField_ne _ _ (by decide), getField_setField_ne _ _ (by decide)]

theorem setEmailsAtUpd_id (idx : Int) (v : Val) (now : Nat) (d : Doc) :
    getField (setEmailsAtUpd idx v now d) "_id" = getField d "_id" := by
  unfold setEmailsAtUpd
  split
  · split
    · rw [getField_setField_ne _ _ (by decide), getField_setField_ne _ _ (by decide)]
    · rfl
  · rfl

theorem runP_assertUserEmailData_replace (st : DB) (uid email : String) (dta : Doc)
    (u : Doc) (es : List Val) (ed : Doc)
    (hu : st.users.find? (matchesId uid) = some u)
    (he : getField u "emails" = some (.arr es))
    (hfind : es.find? (emailValueIs email) = some (.doc ed)) :
    runP (assertUserEmailData uid email (some dta)) st =
      (some (),
       { users := updateFirst st.users (matchesId uid)
           (setEmailsAtUpd (indexOfFirst (emailValueIs email) es)
             (Val.doc (spread ed dta)) (st.clock + 1)),
         config := st.config, clock := st.clock + 1 },
       [Ev.ready, Ev.findUsers, Ev.updateUsers]) := by
  simp only [assertUserEmailData, runP, hu, he, hfind]

theorem verifyUpd_fields (now : Nat) (d : Doc) :
    getField (verifyUpd "verified" "verificationToken" "verificationTokenExpiration" now d) "verified"
        = some (.bool true) ∧
    getField (verifyUpd "verified" "verificationToken" "verificationTokenExpiration" now d) "verificationToken"
        = none ∧
    getField (verifyUpd "verified" "verificationToken" "verificationTokenExpiration" now d) "verificationTokenExpiration"
        = none ∧
    getField (verifyUpd "verified" "verificationToken" "verificationTokenExpiration" now d) "dateUpdated"
        = some (.nat now) := by
  unfold verifyUpd
  refine ⟨?_, ?_, ?_, ?_⟩
  · rw [getField_setField_ne _ _ (by decide), getField_removeField_ne _ (by decide),
      getField_removeField_ne _ (by decide), getField_setField_self]
  · rw [getField_setField_ne _ _ (by decide), getField_removeField_ne _ (by decide),
      getField_removeField_self]
  · rw [getField_setField_ne _ _ (by decide), getField_removeField_self]
  · rw [getField_setField_self]

theorem addResetUpd_fields (token texp : Val) (now : Nat) (d : Doc) :
    getField (addResetUpd "resetPassToken" "resetPassTokenExpiration" token texp now d) "resetPassToken"
        = some token ∧
    getField (addResetUpd "resetPassToken" "resetPassTokenExpiration" token texp now d) "resetPassTokenExpiration"
        = some texp ∧
    getField (addResetUpd "resetPassToken" "resetPassTokenExpiration" token texp now d) "verificationToken"
        = none ∧
    getField (addResetUpd "resetPassToken" "resetPassTokenExpiration" token texp now d) "dateUpdated"
        = some (.nat now) ∧
    getField (addResetUpd "resetPassToken" "resetPassTokenExpiration" token texp now d) "verificationTokenExpiration"
        = getField d "verificationTokenExpiration" ∧
    getField (addResetUpd "resetPassToken" "resetPassTokenExpiration" token texp now d) "tokenExpirationField"
        = none := by
  unfold addResetUpd
  refine ⟨?_, ?_, ?_, ?_, ?_, ?_⟩
  · rw [getField_removeField_ne _ (by decide), getField_removeField_ne _ (by decide),
      getField_setField_ne _ _ (by decide), getField_setField_ne _ _ (by decide),
      getField_setField_self]
  · rw [getField_removeField_ne _ (by decide), getField_removeField_ne _ (by decide),
      getField_setField_ne _ _ (by decide), getField_setField_self]
  · rw [getField_removeField_ne _ (by decide), getField_removeField_self]
  · rw [getField_removeField_ne _ (by decide), getField_removeField_ne _ (by decide),
      getField_setField_self]
  · rw [getField_removeField_ne _ (by decide), getField_removeField_ne _ (by decide),
      getField_setField_ne _ _ (by decide), getField_setField_ne _ _ (by decide),
      getField_setField_ne _ _ (by decide)]
  · rw [getField_removeField_self]

theorem serviceUpd_fields (service : String) (data : Doc) (now : Nat) (d : Doc) :
    getField (serviceUpd service data now d) "services"
        = some (.doc [(service, .doc (spread [] data))]) ∧
    getField (serviceUpd service data now d) "dateUpdated" = some (.nat now) := by
  unfold serviceUpd
  constructor
  · rw [getField_setField_ne _ _ (by decide), getField_setField_self]
  · rw [getField_setField_self]

theorem setEmailsAtUpd_fields (n : Nat) (v : Val) (now : Nat) (d : Doc) (es : List Val)
    (he : getField d "emails" = some (.arr es)) (hlt : n < es.length) :
    getField (setEmailsAtUpd (n : Int) v now d) "emails" = some (.arr (es.set n v)) ∧
    getField (setEmailsAtUpd (n : Int) v now d) "dateUpdated" = some (.nat now) := by
  have hin : (0 : Int) ≤ (n : Int) ∧ (n : Int) < (es.length : Int) := by
    constructor
    · exact Int.ofNat_nonneg n
    · exact_mod_cast hlt
  have htn : ((n : Int)).toNat = n := by omega
  have hred : setEmailsAtUpd (n : Int) v now d
      = setField (setField d "emails" (.arr (es.set n v))) "dateUpdated" (.nat now) := by
    unfold setEmailsAtUpd
    rw [he]
    show (if 0 ≤ (n : Int) ∧ (n : Int) < (es.length : Int) then
        setField (setField d "emails" (.arr (es.set ((n : Int)).toNat v))) "dateUpdated" (.nat now)
      else d) = _
    rw [if_pos hin, htn]
  rw [hred]
  constructor
  · rw [getField_setField_ne _ _ (by decide), getField_setField_self]
  · rw [getField_setField_self]

/-- Concrete user record used by the witnesses. -/
def sampleUser : Doc :=
  [("_id", .str "u1"),
   ("emails", .arr [.doc [("value", .str "a@b.com"), ("type", .str "work")]]),
   ("services", .doc [("facebook", .doc [("id", .str "1")]), ("google", .doc [("id", .str "2")])]),
   ("dateUpdated", .nat 5),
   ("verificationToken", .str "vtok"),
   ("verificationTokenExpiration", .nat 99),
   ("tokenExpirationField", .str "stale")]

/-- Concrete database state used by the witnesses. -/
def sampleDB : DB := { users := [sampleUser], config := [], clock := 7 }

/-- C7: for every existing user, `verifyUserAccount(id)` with default
field names sets `verified` to `true` and removes `verificationToken`
and `verificationTokenExpiration` in one single `updateOne` (the trace
holds exactly one update event), refreshing `dateUpdated`; a subsequent
fetch of the user shows both token fields absent. -/
theorem verifyUserAccount_spec (st : DB) (uid : String) (u : Doc)
    (hu : st.users.find? (matchesId uid) = some u) :
    runOutcome (verifyUserAccountDflt uid) st = some () ∧
    runTrace (verifyUserAccountDflt uid) st = [Ev.ready, Ev.findUsers, Ev.updateUsers] ∧
    ∃ u', runOutcome (fetchUserById uid) (runState (verifyUserAccountDflt uid) st) = some (some u') ∧
      getField u' "verified" = some (.bool true) ∧
      getField u' "verificationToken" = none ∧
      getField u' "verificationTokenExpiration" = none ∧
      getField u' "dateUpdated" = some (.nat (st.clock + 1)) := by
  have hrun := runP_verifyDflt uid st
  have hpres : ∀ d, matchesId uid d = true →
      matchesId uid (verifyUpd "verified" "verificationToken" "verificationTokenExpiration" (st.clock + 1) d) = true := by
    intro d hd
    rw [matchesId_congr uid (verifyUpd_id _ _)]; exact hd
  have hfind : (updateFirst st.users (matchesId uid)
      (verifyUpd "verified" "verificationToken" "verificationTokenExpiration" (st.clock + 1))).find?
        (matchesId uid)
      = some (verifyUpd "verified" "verificationToken" "verificationTokenExpiration" (st.clock + 1) u) := by
    rw [find?_updateFirst _ _ _ hpres, hu]; rfl
  obtain ⟨h1, h2, h3, h4⟩ := verifyUpd_fields (st.clock + 1) u
  refine ⟨by simp [runOutcome, hrun], by simp [runTrace, hrun],
    verifyUpd "verified" "verificationToken" "verificationTokenExpiration" (st.clock + 1) u,
    ?_, h1, h2, h3, h4⟩
  simp only [runOutcome, runState, hrun, runP_fetchUserById]
  rw [hfind]

/-- Witness for C7 at a concrete store. -/
theorem verifyUserAccount_spec_witness :
    runOutcome (verifyUserAccountDflt "u1") sampleDB = some () ∧
    runTrace (verifyUserAccountDflt "u1") sampleDB = [Ev.ready, Ev.findUsers, Ev.updateUsers] ∧
    ∃ u', runOutcome (fetchUserById "u1") (runState (verifyUserAccountDflt "u1") sampleDB) = some (some u') ∧
      getField u' "verified" = some (.bool true) ∧
      getField u' "verificationToken" = none ∧
      getField u' "verificationTokenExpiration" = none ∧
      getField u' "dateUpdated" = some (.nat (sampleDB.clock + 1)) :=
  verifyUserAccount_spec sampleDB "u1" sampleUser rfl

/-- C8: for every existing user, `addResetPasswordToken` with default
field names sets `resetPassToken` and `resetPassTokenExpiration`,
refreshes `dateUpdated` strictly above the pre-call value, and clears
the outstanding `verificationToken`. -/
theorem addResetPasswordToken_spec (st : DB) (uid : String) (token texp : Val) (u : Doc) (t : Nat)
    (hu : st.users.find? (matchesId uid) = some u)
    (hd : getField u "dateUpdated" = some (.nat t))
    (ht : t ≤ st.clock) :
    runOutcome (addResetPasswordTokenDflt uid token texp) st = some () ∧
    ∃ u', runOutcome (fetchUserById uid) (runState (addResetPasswordTokenDflt uid token texp) st)
        = some (some u') ∧
      getField u' "resetPassToken" = some token ∧
      getField u' "resetPassTokenExpiration" = some texp ∧
      getField u' "verificationToken" = none ∧
      getField u' "dateUpdated" = some (.nat (st.clock + 1)) ∧
      t < st.clock + 1 := by
  have hrun := runP_addResetDflt uid token texp st
  have hpres : ∀ d, matchesId uid d = true →
      matchesId uid (addResetUpd "resetPassToken" "resetPassTokenExpiration" token texp (st.clock + 1) d) = true := by
    intro d hd'
    rw [matchesId_congr uid (addResetUpd_id _ _ _ _)]; exact hd'
  have hfind : (updateFirst st.users (matchesId uid)
      (addResetUpd "resetPassToken" "resetPassTokenExpiration" token texp (st.clock + 1))).find?
        (matchesId uid)
      = some (addResetUpd "resetPassToken" "resetPassTokenExpiration" token texp (st.clock + 1) u) := by
    rw [find?_updateFirst _ _ _ hpres, hu]; rfl
  obtain ⟨h1, h2, h3, h4, _h5, _h6⟩ := addResetUpd_fields token texp (st.clock + 1) u
  refine ⟨by simp [runOutcome, hrun],
    addResetUpd "resetPassToken" "resetPassTokenExpiration" token texp (st.clock + 1) u,
    ?_, h1, h2, h3, h4, by omega⟩
  simp only [runOutcome, runState, hrun, runP_fetchUserById]
  rw [hfind]

/-- Witness for C8 at a concrete store. -/
theorem addResetPasswordToken_spec_witness :
    runOutcome (addResetPasswordTokenDflt "u1" (.str "tok") (.nat 50)) sampleDB = some () ∧
    ∃ u', runOutcome (fetchUserById "u1")
        (runState (addResetPasswordTokenDflt "u1" (.str "tok") (.nat 50)) sampleDB) = some (some u') ∧
      getField u' "resetPassToken" = some (.str "tok") ∧
      getField u' "resetPassTokenExpiration" = some (.nat 50) ∧
      getField u' "verificationToken" = none ∧
      getField u' "dateUpdated" = some (.nat (sampleDB.clock + 1)) ∧
      5 < sampleDB.clock + 1 :=
  addResetPasswordToken_spec sampleDB "u1" (.str "tok") (.nat 50) sampleUser 5 rfl rfl (by decide)

/-- C10: `addResetPasswordToken` with default field names leaves
`verificationTokenExpiration` unchanged and instead removes a field
literally named `tokenExpirationField`, because the `$unset` key is a
string literal rather than the `tokenExpirationField` parameter. -/
theorem addResetPasswordToken_frame (st : DB) (uid : String) (token texp : Val) (u : Doc)
    (hu : st.users.find? (matchesId uid) = some u) :
    ∃ u', runOutcome (fetchUserById uid) (runState (addResetPasswordTokenDflt uid token texp) st)
        = some (some u') ∧
      getField u' "verificationTokenExpiration" = getField u "verificationTokenExpiration" ∧
      getField u' "tokenExpirationField" = none := by
  have hrun := runP_addResetDflt uid token texp st
  have hpres : ∀ d, matchesId uid d = true →
      matchesId uid (addResetUpd "resetPassToken" "resetPassTokenExpiration" token texp (st.clock + 1) d) = true := by
    intro d hd'
    rw [matchesId_congr uid (addResetUpd_id _ _ _ _)]; exact hd'
  have hfind : (updateFirst st.users (matchesId uid)
      (addResetUpd "resetPassToken" "resetPassTokenExpiration" token texp (st.clock + 1))).find?
        (matchesId uid)
      = some (addResetUpd "resetPassToken" "resetPassTokenExpiration" token texp (st.clock + 1) u) := by
    rw [find?_updateFirst _ _ _ hpres, hu]; rfl
  obtain ⟨_h1, _h2, _h3, _h4, h5, h6⟩ := addResetUpd_fields token texp (st.clock + 1) u
  refine ⟨addResetUpd "resetPassToken" "resetPassTokenExpiration" token texp (st.clock + 1) u,
    ?_, h5, h6⟩
  simp only [runOutcome, runState, hrun, runP_fetchUserById]
  rw [hfind]

/-- Witness for C10 at a concrete store. -/
theorem addResetPasswordToken_frame_witness :
    ∃ u', runOutcome (fetchUserById "u1")
        (runState (addResetPasswordTokenDflt "u1" (.str "tok") (.nat 50)) sampleDB) = some (some u') ∧
      getField u' "verificationTokenExpiration" = getField sampleUser "verificationTokenExpiration" ∧
      getField u' "tokenExpirationField" = none :=
  addResetPasswordToken_frame sampleDB "u1" (.str "tok") (.nat 50) sampleUser rfl

/-- Nested lookup `d[k1][k2]` used to read the reshaped config mapping
and the `services` mapping of a user. -/
def lookup2 (d : Doc) (k1 k2 : String) : Option Val :=
  match getField d k1 with
  | some (.doc dd) => getField dd k2
  | _ => none

/-- C2 (amended): `assertUserServiceData(id, service, data)` overwrites
the user's entire `services` field with exactly
`{ [service]: { ...data } }` and refreshes `dateUpdated`; entries under
other service names are removed, not preserved. -/
theorem assertUserServiceData_spec (st : DB) (uid service : String) (data : Doc) (u : Doc)
    (hu : st.users.find? (matchesId uid) = some u) :
    runOutcome (assertUserServiceData uid service data) st = some () ∧
    ∃ u', runOutcome (fetchUserById uid) (runState (assertUserServiceData uid service data) st)
        = some (some u') ∧
      getField u' "services" = some (.doc [(service, .doc (spread [] data))]) ∧
      getField u' "dateUpdated" = some (.nat (st.clock + 1)) := by
  have hrun := runP_assertService uid service data st
  have hpres : ∀ d, matchesId uid d = true →
      matchesId uid (serviceUpd service data (st.clock + 1) d) = true := by
    intro d hd'
    rw [matchesId_congr uid (serviceUpd_id _ _ _ _)]; exact hd'
  have hfind : (updateFirst st.users (matchesId uid) (serviceUpd service data (st.clock + 1))).find?
        (matchesId uid)
      = some (serviceUpd service data (st.clock + 1) u) := by
    rw [find?_updateFirst _ _ _ hpres, hu]; rfl
  obtain ⟨h1, h2⟩ := serviceUpd_fields service data (st.clock + 1) u
  refine ⟨by simp [runOutcome, hrun], serviceUpd service data (st.clock + 1) u, ?_, h1, h2⟩
  simp only [runOutcome, runState, hrun, runP_fetchUserById]
  rw [hfind]

/-- Witness for the amended C2 at a concrete store. -/
theorem assertUserServiceData_spec_witness :
    runOutcome (assertUserServiceData "u1" "facebook" [("id", .str "5")]) sampleDB = some () ∧
    ∃ u', runOutcome (fetchUserById "u1")
        (runState (assertUserServiceData "u1" "facebook" [("id", .str "5")]) sampleDB)
        = some (some u') ∧
      getField u' "services" = some (.doc [("facebook", .doc (spread [] [("id", .str "5")]))]) ∧
      getField u' "dateUpdated" = some (.nat (sampleDB.clock + 1)) :=
  assertUserServiceData_spec sampleDB "u1" "facebook" [("id", .str "5")] sampleUser rfl

/-- Counterexample to C2 as stated: `sampleUser` holds a `google`
service entry before the call; after
`assertUserServiceData("u1", "facebook", {id: "5"})` the `google`
entry is gone, where the claim says it is left unchanged. -/
theorem assertUserServiceData_drops_sibling :
    lookup2 sampleUser "services" "google" = some (.doc [("id", .str "2")]) ∧
    (match runOutcome (fetchUserById "u1")
        (runState (assertUserServiceData "u1" "facebook" [("id", .str "5")]) sampleDB) with
     | some (some u') => lookup2 u' "services" "google"
     | _ => some .null) = none :=
  ⟨rfl, rfl⟩

/-- C3: `addResetPasswordToken` issues its `updateOne` with no
preceding readiness await — its trace is exactly `[updateUsers]` and
contains no `ready` event — while every other public data operation
begins with a `ready` event. -/
theorem addResetPasswordToken_skips_ready (st : DB) (uid : String) (token texp : Val) :
    runTrace (addResetPasswordTokenDflt uid token texp) st = [Ev.updateUsers] ∧
    Ev.ready ∉ runTrace (addResetPasswordTokenDflt uid token texp) st ∧
    (runTrace fetchConfig st).head? = some Ev.ready ∧
    (∀ ty idv value, (runTrace (setConfigKey ty idv value) st).head? = some Ev.ready) ∧
    (runTrace (fetchUserById uid) st).head? = some Ev.ready ∧
    (∀ email, (runTrace (fetchUserByEmail email) st).head? = some Ev.ready) ∧
    (∀ service sid email, (runTrace (fetchUserByServiceIdOrEmail service sid email) st).head? = some Ev.ready) ∧
    (runTrace (verifyUserAccountDflt uid) st).head? = some Ev.ready ∧
    (∀ email data, (runTrace (assertUserEmailData uid email data) st).head? = some Ev.ready) ∧
    (∀ service data, (runTrace (assertUserServiceData uid service data) st).head? = some Ev.ready) := by
  refine ⟨rfl, by simp [runTrace, runP_addResetDflt], rfl, fun ty idv value => rfl, rfl,
    fun email => rfl, fun service sid email => rfl, rfl, fun email data => rfl,
    fun service data => rfl⟩

/-- C6: with no matching stored record, `fetchUserById`,
`fetchUserByEmail` and `fetchUserByServiceIdOrEmail` each resolve with
null (`some none`: completed, no exception). -/
theorem fetch_missing_returns_null (st : DB) (uid email service sid email2 : String)
    (h1 : ∀ u ∈ st.users, matchesId uid u = false)
    (h2 : ∀ u ∈ st.users, hasEmailValue email u = false)
    (h3 : ∀ u ∈ st.users, (hasServiceId service sid u || hasEmailValue email2 u) = false) :
    runOutcome (fetchUserById uid) st = some none ∧
    runOutcome (fetchUserByEmail email) st = some none ∧
    runOutcome (fetchUserByServiceIdOrEmail service sid email2) st = some none := by
  refine ⟨?_, ?_, ?_⟩
  · have : st.users.find? (matchesId uid) = none :=
      List.find?_eq_none.mpr (fun u hm => by simp [h1 u hm])
    simp [runOutcome, runP_fetchUserById, this]
  · have : st.users.find? (hasEmailValue email) = none :=
      List.find?_eq_none.mpr (fun u hm => by simp [h2 u hm])
    simp [runOutcome, runP_fetchUserByEmail, this]
  · have : st.users.find? (fun d => hasServiceId service sid d || hasEmailValue email2 d) = none :=
      List.find?_eq_none.mpr (fun u hm => by simp [h3 u hm])
    simp [runOutcome, runP_fetchUserByServiceIdOrEmail, this]

/-- Witness for C6 at a concrete store. -/
theorem fetch_missing_returns_null_witness :
    runOutcome (fetchUserById "nobody") sampleDB = some none ∧
    runOutcome (fetchUserByEmail "zz@zz.com") sampleDB = some none ∧
    runOutcome (fetchUserByServiceIdOrEmail "twitter" "9" "zz@zz.com") sampleDB = some none :=
  fetch_missing_returns_null sampleDB "nobody" "zz@zz.com" "twitter" "9" "zz@zz.com"
    (fun u hm => by cases hm with
      | head => rfl
      | tail _ hm' => cases hm')
    (fun u hm => by cases hm with
      | head => rfl
      | tail _ hm' => cases hm')
    (fun u hm => by cases hm with
      | head => rfl
      | tail _ hm' => cases hm')

/-- `findOne` succeeds whenever some stored element satisfies the filter. -/
theorem find?_of_exists {α : Type} (p : α → Bool) (l : List α) (a : α)
    (ha : a ∈ l) (hp : p a = true) : ∃ b, l.find? p = some b ∧ p b = true := by
  induction l with
  | nil => cases ha
  | cons h t ih =>
    by_cases hph : p h = true
    · exact ⟨h, by simp [List.find?, hph], hph⟩
    · have hph' : p h = false := by simpa using hph
      cases ha with
      | head => rw [hp] at hph'; cases hph'
      | tail _ hm =>
        obtain ⟨b, hb, hpb⟩ := ih hm
        exact ⟨b, by simp [List.find?, hph', hb], hpb⟩

/-- C5: any record returned by `fetchUserByServiceIdOrEmail` satisfies
the disjunction `services[service].id == serviceId` or some email entry
has `value == email`; and whenever a stored record matches the email
condition (resp. the service condition) alone, a record is returned. -/
theorem fetchUserByServiceIdOrEmail_spec (st : DB) (service sid email : String) :
    (∀ u, runOutcome (fetchUserByServiceIdOrEmail service sid email) st = some (some u) →
      (hasServiceId service sid u || hasEmailValue email u) = true) ∧
    ((∃ v ∈ st.users, hasEmailValue email v = true) →
      ∃ w, runOutcome (fetchUserByServiceIdOrEmail service sid email) st = some (some w) ∧
        (hasServiceId service sid w || hasEmailValue email w) = true) ∧
    ((∃ v ∈ st.users, hasServiceId service sid v = true) →
      ∃ w, runOutcome (fetchUserByServiceIdOrEmail service sid email) st = some (some w) ∧
        (hasServiceId service sid w || hasEmailValue email w) = true) := by
  refine ⟨?_, ?_, ?_⟩
  · intro u hres
    simp only [runOutcome, runP_fetchUserByServiceIdOrEmail, Option.some.injEq] at hres
    have h := List.find?_some hres
    simpa using h
  · rintro ⟨v, hm, hv⟩
    obtain ⟨w, hw, hpw⟩ := find?_of_exists
      (fun d => hasServiceId service sid d || hasEmailValue email d) st.users v hm (by simp [hv])
    exact ⟨w, by simp [runOutcome, runP_fetchUserByServiceIdOrEmail, hw], hpw⟩
  · rintro ⟨v, hm, hv⟩
    obtain ⟨w, hw, hpw⟩ := find?_of_exists
      (fun d => hasServiceId service sid d || hasEmailValue email d) st.users v hm (by simp [hv])
    exact ⟨w, by simp [runOutcome, runP_fetchUserByServiceIdOrEmail, hw], hpw⟩

/-- Witness for C5: the email-only and service-only lookups of the
concrete store both return a user. -/
theorem fetchUserByServiceIdOrEmail_spec_witness :
    (hasServiceId "facebook" "no-match" sampleUser || hasEmailValue "a@b.com" sampleUser) = true ∧
    (∃ w, runOutcome (fetchUserByServiceIdOrEmail "facebook" "no-match" "a@b.com") sampleDB
        = some (some w) ∧
      (hasServiceId "facebook" "no-match" w || hasEmailValue "a@b.com" w) = true) ∧
    (∃ w, runOutcome (fetchUserByServiceIdOrEmail "facebook" "1" "nomatch") sampleDB
        = some (some w) ∧
      (hasServiceId "facebook" "1" w || hasEmailValue "nomatch" w) = true) := by
  refine ⟨(fetchUserByServiceIdOrEmail_spec sampleDB "facebook" "no-match" "a@b.com").1 sampleUser rfl,
    (fetchUserByServiceIdOrEmail_spec sampleDB "facebook" "no-match" "a@b.com").2.1
      ⟨sampleUser, by simp [sampleDB], rfl⟩,
    (fetchUserByServiceIdOrEmail_spec sampleDB "facebook" "1" "nomatch").2.2
      ⟨sampleUser, by simp [sampleDB], rfl⟩⟩

/-- The shift-and-call loop releases the queue in its own order. -/
theorem drain_eq (l : List Nat) : drain l = l := by
  induction l with
  | nil => rfl
  | cons w rest ih => simp [drain, ih]

/-- Queueing waiters before readiness appends them in call order. -/
theorem enqueueAll_spec (ws : List Nat) :
    ∀ g : Gate, g.initted = false →
      (enqueueAll g ws).initted = false ∧ (enqueueAll g ws).readySubs = g.readySubs ++ ws := by
  induction ws with
  | nil => intro g hg; exact ⟨hg, by simp [enqueueAll]⟩
  | cons w rest ih =>
    intro g hg
    have hstep : (gateReady g w).2 = { g with readySubs := g.readySubs ++ [w] } := by
      simp [gateReady, hg]
    have : enqueueAll g (w :: rest) = enqueueAll { g with readySubs := g.readySubs ++ [w] } rest := by
      simp [enqueueAll, List.foldl_cons, hstep]
    rw [this]
    obtain ⟨h1, h2⟩ := ih { g with readySubs := g.readySubs ++ [w] } hg
    exact ⟨h1, by simpa [List.append_assoc] using h2⟩

/-- C9: every waiter queued by `_ready()` before initialization
completes is released exactly once when `_init` finishes, in FIFO
queue order, and any `_ready()` call issued after readiness resolves
immediately with the queue untouched. -/
theorem readiness_gate_fifo (g : Gate) (ws : List Nat) (hg : g.initted = false) :
    (initComplete (enqueueAll g ws)).1 = g.readySubs ++ ws ∧
    (initComplete (enqueueAll g ws)).2.initted = true ∧
    (initComplete (enqueueAll g ws)).2.readySubs = [] ∧
    (∀ w, gateReady (initComplete (enqueueAll g ws)).2 w
      = (true, (initComplete (enqueueAll g ws)).2)) := by
  obtain ⟨h1, h2⟩ := enqueueAll_spec ws g hg
  refine ⟨?_, rfl, rfl, ?_⟩
  · simp [initComplete, drain_eq, h2]
  · intro w; simp [initComplete, gateReady]

/-- Witness for C9 with three queued waiters. -/
theorem readiness_gate_fifo_witness :
    (initComplete (enqueueAll ⟨false, []⟩ [10, 11, 12])).1 = [] ++ [10, 11, 12] ∧
    (initComplete (enqueueAll ⟨false, []⟩ [10, 11, 12])).2.initted = true ∧
    (initComplete (enqueueAll ⟨false, []⟩ [10, 11, 12])).2.readySubs = [] ∧
    (∀ w, gateReady (initComplete (enqueueAll ⟨false, []⟩ [10, 11, 12])).2 w
      = (true, (initComplete (enqueueAll ⟨false, []⟩ [10, 11, 12])).2)) :=
  readiness_gate_fifo ⟨false, []⟩ [10, 11, 12] rfl

/-- C1 (amended): when the user's `emails` sequence holds an entry with
the given value and `data` is supplied, `assertUserEmailData` replaces
that positional entry with `{ ...priorEntry, ...data }` — a field-level
merge in which fields of the prior entry absent from `data` are
retained — and refreshes `dateUpdated`. -/
theorem assertUserEmailData_merges (st : DB) (uid email : String) (dta : Doc)
    (u : Doc) (es : List Val) (ed : Doc)
    (hu : st.users.find? (matchesId uid) = some u)
    (he : getField u "emails" = some (.arr es))
    (hfind : es.find? (emailValueIs email) = some (.doc ed)) :
    runOutcome (assertUserEmailData uid email (some dta)) st = some () ∧
    ∃ n : Nat, indexOfFirst (emailValueIs email) es = (n : Int) ∧ n < es.length ∧
      ∃ u', runOutcome (fetchUserById uid) (runState (assertUserEmailData uid email (some dta)) st)
          = some (some u') ∧
        getField u' "emails" = some (.arr (es.set n (Val.doc (spread ed dta)))) ∧
        getField u' "dateUpdated" = some (.nat (st.clock + 1)) := by
  obtain ⟨n, hn, hlt⟩ := indexOfFirst_of_find? (emailValueIs email) es (.doc ed) hfind
  have hrun := runP_assertUserEmailData_replace st uid email dta u es ed hu he hfind
  rw [hn] at hrun
  have hpres : ∀ d, matchesId uid d = true →
      matchesId uid (setEmailsAtUpd (n : Int) (Val.doc (spread ed dta)) (st.clock + 1) d) = true := by
    intro d hd'
    rw [matchesId_congr uid (setEmailsAtUpd_id _ _ _ _)]; exact hd'
  have hfind' : (updateFirst st.users (matchesId uid)
      (setEmailsAtUpd (n : Int) (Val.doc (spread ed dta)) (st.clock + 1))).find? (matchesId uid)
      = some (setEmailsAtUpd (n : Int) (Val.doc (spread ed dta)) (st.clock + 1) u) := by
    rw [find?_updateFirst _ _ _ hpres, hu]; rfl
  obtain ⟨h1, h2⟩ := setEmailsAtUpd_fields n (Val.doc (spread ed dta)) (st.clock + 1) u es he hlt
  refine ⟨by simp [runOutcome, hrun], n, hn, hlt,
    setEmailsAtUpd (n : Int) (Val.doc (spread ed dta)) (st.clock + 1) u, ?_, h1, h2⟩
  simp only [runOutcome, runState, hrun, runP_fetchUserById]
  rw [hfind']

/-- Witness for the amended C1 at a concrete store. -/
theorem assertUserEmailData_merges_witness :
    runOutcome (assertUserEmailData "u1" "a@b.com" (some [("verified", .bool true)])) sampleDB
      = some () ∧
    ∃ n : Nat, indexOfFirst (emailValueIs "a@b.com")
        [.doc [("value", .str "a@b.com"), ("type", .str "work")]] = (n : Int) ∧
      n < [Val.doc [("value", .str "a@b.com"), ("type", .str "work")]].length ∧
      ∃ u', runOutcome (fetchUserById "u1")
          (runState (assertUserEmailData "u1" "a@b.com" (some [("verified", .bool true)])) sampleDB)
          = some (some u') ∧
        getField u' "emails" = some (.arr
          ([Val.doc [("value", .str "a@b.com"), ("type", .str "work")]].set n
            (Val.doc (spread [("value", .str "a@b.com"), ("type", .str "work")]
              [("verified", .bool true)])))) ∧
        getField u' "dateUpdated" = some (.nat (sampleDB.clock + 1)) :=
  assertUserEmailData_merges sampleDB "u1" "a@b.com" [("verified", .bool true)] sampleUser
    [.doc [("value", .str "a@b.com"), ("type", .str "work")]]
    [("value", .str "a@b.com"), ("type", .str "work")] rfl rfl rfl

/-- Counterexample to C1 as stated: the prior entry carries
`type: "work"`, `data` is `{verified: true}` without a `type` field,
and after the call the resulting entry still carries `type: "work"` —
where the claim says prior metadata absent from `data` must not appear. -/
theorem assertUserEmailData_keeps_prior_metadata :
    getField [("verified", Val.bool true)] "type" = none ∧
    (match runOutcome (fetchUserById "u1")
        (runState (assertUserEmailData "u1" "a@b.com" (some [("verified", .bool true)])) sampleDB) with
     | some (some u') =>
       match getField u' "emails" with
       | some (.arr es) =>
         match es.find? (emailValueIs "a@b.com") with
         | some (.doc ed) => getField ed "type"
         | _ => none
       | _ => none
     | _ => none) = some (.str "work") ∧
    (match runOutcome (fetchUserById "u1")
        (runState (assertUserEmailData "u1" "a@b.com" (some [("verified", .bool true)])) sampleDB) with
     | some (some u') =>
       match getField u' "emails" with
       | some (.arr es) =>
         match es.find? (emailValueIs "a@b.com") with
         | some (.doc ed) => getField ed "verified"
         | _ => none
       | _ => none
     | _ => none) = some (.bool true) :=
  ⟨rfl, rfl, rfl⟩

/-- Reshaping a row files it under its own `type` and `_id` fields. -/
theorem lookup2_configReshape (out row : Doc) (ty idv : String)
    (ht : getField row "type" = some (.str ty)) (hi : getField row "_id" = some (.str idv)) :
    lookup2 (configReshape out row) ty idv = some (.doc row) := by
  simp [configReshape, lookup2, ht, hi, keyStr, getField_setField_self]

/-- C4 (amended): provided `value` carries no field named `type` or
`_id` (the record-identifier field, called `id` in the spec), after
`setConfigKey(type, id, value)` the mapping returned by `fetchConfig()`
holds at `[type][id]` exactly the inserted record
`{ type, _id: id, ...value }`; and on an empty config collection
`fetchConfig()` returns the empty mapping. -/
theorem setConfigKey_fetchConfig_spec (st : DB) (ty idv : String) (value : Doc)
    (hv : ∀ kv ∈ value, kv.1 ≠ "type" ∧ kv.1 ≠ "_id") :
    (st.config = [] → runOutcome fetchConfig st = some []) ∧
    ∃ out, runOutcome fetchConfig (runState (setConfigKey ty idv value) st) = some out ∧
      lookup2 out ty idv = some (.doc (spread [("type", .str ty), ("_id", .str idv)] value)) := by
  constructor
  · intro h
    simp [runOutcome, runP_fetchConfig, h]
  · have hrow_t : getField (spread [("type", .str ty), ("_id", .str idv)] value) "type"
        = some (.str ty) := by
      rw [getField_spread_of_not_mem value "type" _ (fun kv hm => (hv kv hm).1)]
      simp [getField]
    have hrow_i : getField (spread [("type", .str ty), ("_id", .str idv)] value) "_id"
        = some (.str idv) := by
      rw [getField_spread_of_not_mem value "_id" _ (fun kv hm => (hv kv hm).2)]
      simp [getField]
    have hout : runOutcome fetchConfig (runState (setConfigKey ty idv value) st)
        = some (configReshape (List.foldl configReshape [] st.config)
            (spread [("type", .str ty), ("_id", .str idv)] value)) := by
      simp only [runOutcome, runState, runP_setConfigKey, runP_fetchConfig]
      rw [List.foldl_append]
      simp
    exact ⟨_, hout, lookup2_configReshape _ _ ty idv hrow_t hrow_i⟩

/-- Witness for the amended C4 at a concrete store. -/
theorem setConfigKey_fetchConfig_spec_witness :
    (sampleDB.config = [] → runOutcome fetchConfig sampleDB = some []) ∧
    ∃ out, runOutcome fetchConfig (runState (setConfigKey "service" "facebook" [("appId", .str "77")]) sampleDB)
        = some out ∧
      lookup2 out "service" "facebook"
        = some (.doc (spread [("type", .str "service"), ("_id", .str "facebook")] [("appId", .str "77")])) :=
  setConfigKey_fetchConfig_spec sampleDB "service" "facebook" [("appId", .str "77")]
    (fun kv hm => by cases hm with
      | head => exact ⟨by decide, by decide⟩
      | tail _ hm' => cases hm')

/-- Freshly constructed empty database state. -/
def emptyDB : DB := { users := [], config := [], clock := 0 }

/-- Counterexample to C4 as stated: with `value = {type: "z"}` the
spread `{ type, _id, ...value }` lets `value` shadow the `type` key, so
the inserted row is filed under `["z"]["b"]` and `fetchConfig()` holds
no entry at `["a"]["b"]` — where the claim asserts one equal to
`{ type, id, ...value }` for every `value`. -/
theorem setConfigKey_value_can_shadow_key :
    (match runOutcome fetchConfig (runState (setConfigKey "a" "b" [("type", .str "z")]) emptyDB) with
     | some out => lookup2 out "a" "b"
     | none => some .null) = none ∧
    (match runOutcome fetchConfig (runState (setConfigKey "a" "b" [("type", .str "z")]) emptyDB) with
     | some out => lookup2 out "z" "b"
     | none => none) = some (.doc (spread [("type", .str "a"), ("_id", .str "b")] [("type", .str "z")])) :=
  ⟨rfl, rfl⟩
